import Mathlib

/-!
Verification of the mlua-luau-runtime cooperative scheduler

Shallow embedding of the scheduler core described in the specification and
implemented in `src/lib/traits.rs` and `src/examples/scheduler_ordering.rs`.
Components whose source files are not available (the thread queues, the
result map, the runtime loop) are modelled from the specification; their
doc comments say so explicitly.
-/

namespace MluaLuauRuntime

/-- Opaque payload of a finished thread: either a success value or a
failure payload coming from the scripting engine. Payloads are opaque to
the scheduler, so they are represented by `Nat` handles. -/
inductive ThreadResult where
  | success (v : Nat)
  | failure (e : Nat)
deriving DecidableEq, Repr

/-- State of one tracked entry of the result map: either still pending
(with the tokens of the listeners currently suspended on it) or resolved
with a final result. -/
inductive Slot where
  | pending (waiting : List Nat)
  | resolved (r : ThreadResult)
deriving DecidableEq, Repr

/-- Modelled from the spec: `ThreadResultMap` (its source file
`result_map.rs` is not available; only its callers in `traits.rs` are).
"tracks in-flight thread ids, stores completion results keyed by id, and
lets any number of waiters asynchronously block until a specific id's
result becomes available."  `slots` maps a thread id to its entry
(`none` = never tracked); `woken` records the listener tokens that have
been released (their futures have resolved). -/
structure ThreadResultMap where
  slots : Nat → Option Slot
  woken : List Nat

/-- Modelled from the spec: "`track(id)`: marks `id` as pending;
idempotent if already tracked." -/
def ThreadResultMap.track (m : ThreadResultMap) (i : Nat) : ThreadResultMap :=
  match m.slots i with
  | none => { m with slots := fun j => if j = i then some (.pending []) else m.slots j }
  | some _ => m

/-- Modelled from the spec: the resolution write path, "stores the
thread's final result keyed by id, and wakes all listeners for that id.
Writing a result for an id with no tracked entry is a silent no-op"; "a
result may be written at most once per id". -/
def ThreadResultMap.writeResult (m : ThreadResultMap) (i : Nat) (r : ThreadResult) :
    ThreadResultMap :=
  match m.slots i with
  | none => m
  | some (.pending ws) =>
      { slots := fun j => if j = i then some (.resolved r) else m.slots j,
        woken := ws ++ m.woken }
  | some (.resolved _) => m

/-- Modelled from the spec: "`remove(id) -> Option<Result>`: atomically
takes and clears the stored result if present." Returns the taken result
(if any) together with the updated map. -/
def ThreadResultMap.remove (m : ThreadResultMap) (i : Nat) :
    Option ThreadResult × ThreadResultMap :=
  match m.slots i with
  | some (.resolved r) =>
      (some r, { m with slots := fun j => if j = i then none else m.slots j })
  | _ => (none, m)

/-- Modelled from the spec: "`listen(id)`: suspends the caller until a
result for `id` is written, then resolves; multiple concurrent listeners
on the same id are all released when the result arrives". A listener is
identified by a token; listening on an already-resolved id resolves
immediately, listening on a pending id suspends the token, and listening
on an untracked id is not meaningful (the token never resolves). -/
def ThreadResultMap.listen (m : ThreadResultMap) (i : Nat) (tok : Nat) :
    ThreadResultMap :=
  match m.slots i with
  | none => m
  | some (.pending ws) =>
      { m with slots := fun j => if j = i then some (.pending (tok :: ws)) else m.slots j }
  | some (.resolved _) => { m with woken := tok :: m.woken }

/-- The empty result map: nothing tracked, nobody woken. -/
def ThreadResultMap.empty : ThreadResultMap :=
  { slots := fun _ => none, woken := [] }

end MluaLuauRuntime

namespace MluaLuauRuntime

/-- Claim C3: For every thread id that was never passed to `track`, a
completion-result write for that id is a silent no-op, and a subsequent
`get_thread_result` (`remove`) for that id returns the no-result outcome
(`none`) rather than raising an error. -/
theorem untracked_write_noop_and_remove_none
    (m : ThreadResultMap) (i : Nat) (r : ThreadResult)
    (h : m.slots i = none) :
    m.writeResult i r = m ∧ ((m.writeResult i r).remove i).1 = none := by
  have hw : m.writeResult i r = m := by
    unfold ThreadResultMap.writeResult
    rw [h]
  refine ⟨hw, ?_⟩
  rw [hw]
  unfold ThreadResultMap.remove
  rw [h]

/-- Witness for C3: with the empty map and id 0, writing a result is a
no-op and removing returns `none`. -/
theorem untracked_write_noop_and_remove_none_witness :
    ThreadResultMap.empty.writeResult 0 (.success 7) = ThreadResultMap.empty ∧
      ((ThreadResultMap.empty.writeResult 0 (.success 7)).remove 0).1 = none :=
  untracked_write_noop_and_remove_none ThreadResultMap.empty 0 (.success 7) rfl

/-- Claim C4: For every thread id `i` that is not already resolved, calling
`track i`, then writing a result for `i`, then `remove i`, returns exactly
the stored result, and a second `remove i` returns nothing: the result is
taken at most once. -/
theorem track_write_remove_once
    (m : ThreadResultMap) (i : Nat) (r : ThreadResult)
    (h : ∀ r₀, m.slots i ≠ some (.resolved r₀)) :
    (((m.track i).writeResult i r).remove i).1 = some r ∧
      (((((m.track i).writeResult i r).remove i).2).remove i).1 = none := by
  have h1 : ((m.track i).writeResult i r).slots i = some (.resolved r) := by
    unfold ThreadResultMap.track ThreadResultMap.writeResult
    cases hm : m.slots i with
    | none => simp [hm]
    | some s =>
        cases s with
        | pending ws => simp [hm]
        | resolved r₀ => exact absurd hm (h r₀)
  constructor
  · unfold ThreadResultMap.remove
    rw [h1]
  · unfold ThreadResultMap.remove
    rw [h1]
    simp

/-- Witness for C4: at the empty map with id 3, the tracked-then-written
result is returned exactly once. -/
theorem track_write_remove_once_witness :
    (((ThreadResultMap.empty.track 3).writeResult 3 (.failure 9)).remove 3).1 =
        some (.failure 9) ∧
      ((((((ThreadResultMap.empty.track 3).writeResult 3 (.failure 9)).remove 3).2)).remove
          3).1 = none :=
  track_write_remove_once ThreadResultMap.empty 3 (.failure 9)
    (fun r₀ h => by simp [ThreadResultMap.empty] at h)

/-- Claim C6: `track` is idempotent: calling `track i` twice leaves the
result map in a state literally identical to the state after a single
`track i`, so every subsequent operation behaves identically in both
cases. (Proven for every map state, in particular for ids not yet
resolved.) -/
theorem track_idempotent (m : ThreadResultMap) (i : Nat) :
    (m.track i).track i = m.track i := by
  unfold ThreadResultMap.track
  cases hm : m.slots i with
  | none => simp [hm]
  | some s => simp [hm]

/-- An operation on the result map concerning one fixed thread id: either a
new `listen` call (identified by the listener's token) or the result write
performed by the runtime when the thread finishes. -/
inductive MapOp where
  | listen (tok : Nat)
  | write (r : ThreadResult)
deriving DecidableEq, Repr

/-- Apply one `MapOp` for thread id `i` to the result map. -/
def applyOp (i : Nat) (m : ThreadResultMap) : MapOp → ThreadResultMap
  | .listen tok => m.listen i tok
  | .write r => m.writeResult i r

/-- Apply a sequence of `MapOp`s for thread id `i`, in order. -/
def applyOps (i : Nat) (m : ThreadResultMap) (ops : List MapOp) : ThreadResultMap :=
  ops.foldl (applyOp i) m

theorem applyOps_cons (i : Nat) (m : ThreadResultMap) (op : MapOp) (ops : List MapOp) :
    applyOps i m (op :: ops) = applyOps i (applyOp i m op) ops := rfl

/-- A token once woken stays woken across any single operation. -/
theorem woken_mono_op (i : Nat) (m : ThreadResultMap) (op : MapOp) (x : Nat)
    (hx : x ∈ m.woken) : x ∈ (applyOp i m op).woken := by
  cases op with
  | listen tok =>
      unfold applyOp ThreadResultMap.listen
      cases hm : m.slots i with
      | none => exact hx
      | some s => cases s with
        | pending ws => exact hx
        | resolved r => exact List.mem_cons_of_mem _ hx
  | write r =>
      unfold applyOp ThreadResultMap.writeResult
      cases hm : m.slots i with
      | none => exact hx
      | some s => cases s with
        | pending ws => exact List.mem_append_right _ hx
        | resolved r₀ => exact hx

/-- A token once woken stays woken across any sequence of operations. -/
theorem woken_mono (i : Nat) (ops : List MapOp) (m : ThreadResultMap) (x : Nat)
    (hx : x ∈ m.woken) : x ∈ (applyOps i m ops).woken := by
  induction ops generalizing m with
  | nil => exact hx
  | cons op rest ih => exact ih (applyOp i m op) (woken_mono_op i m op x hx)

/-- Once the slot of `i` is resolved it stays resolved across any single
operation. -/
theorem resolved_stable_op (i : Nat) (m : ThreadResultMap) (op : MapOp) (r : ThreadResult)
    (hm : m.slots i = some (.resolved r)) :
    (applyOp i m op).slots i = some (.resolved r) := by
  cases op with
  | listen tok => simp [applyOp, ThreadResultMap.listen, hm]
  | write r₀ => simp [applyOp, ThreadResultMap.writeResult, hm]

/-- Every `listen` issued while the slot of `i` is already resolved wakes
its token immediately, so it is woken in the final state. -/
theorem resolved_listens_wake (i : Nat) (ops : List MapOp) (m : ThreadResultMap)
    (r : ThreadResult) (hm : m.slots i = some (.resolved r)) :
    ∀ tok, MapOp.listen tok ∈ ops → tok ∈ (applyOps i m ops).woken := by
  induction ops generalizing m r with
  | nil => intro tok htok; cases htok
  | cons op rest ih =>
      intro tok htok
      rw [applyOps_cons]
      rcases List.mem_cons.mp htok with heq | hrest
      · subst heq
        have hwoken : tok ∈ (applyOp i m (.listen tok)).woken := by
          unfold applyOp ThreadResultMap.listen
          rw [hm]
          exact List.mem_cons_self _ _
        exact woken_mono i rest _ tok hwoken
      · exact ih (applyOp i m op) r (resolved_stable_op i m op r hm) tok hrest

/-- Claim C7: For every tracked pending thread id `i` (with current waiting
set `ws`) and every sequence of concurrent `listen` calls interleaved in
any order with the result write, once the write occurs in the sequence,
every already-waiting token and every token of a `listen` call in the
sequence ends up woken: notification is broadcast to all listeners,
regardless of the order of the `listen` calls relative to the write. -/
theorem listeners_broadcast (m : ThreadResultMap) (i : Nat) (ws : List Nat)
    (ops : List MapOp)
    (hp : m.slots i = some (.pending ws))
    (hw : ∃ r, MapOp.write r ∈ ops) :
    (∀ tok ∈ ws, tok ∈ (applyOps i m ops).woken) ∧
      ∀ tok, MapOp.listen tok ∈ ops → tok ∈ (applyOps i m ops).woken := by
  induction ops generalizing m ws with
  | nil =>
      obtain ⟨r, hr⟩ := hw
      cases hr
  | cons op rest ih =>
      cases op with
      | listen tok' =>
          have hp' : (applyOp i m (.listen tok')).slots i = some (.pending (tok' :: ws)) := by
            unfold applyOp ThreadResultMap.listen
            rw [hp]
            simp
          have hw' : ∃ r, MapOp.write r ∈ rest := by
            obtain ⟨r, hr⟩ := hw
            rcases List.mem_cons.mp hr with heq | hrest
            · cases heq
            · exact ⟨r, hrest⟩
          obtain ⟨iha, ihb⟩ := ih (applyOp i m (.listen tok')) (tok' :: ws) hp' hw'
          rw [applyOps_cons]
          refine ⟨fun tok htok => iha tok (List.mem_cons_of_mem _ htok), ?_⟩
          intro tok htok
          rcases List.mem_cons.mp htok with heq | hrest
          · have htt : tok = tok' := by injection heq
            rw [htt]
            exact iha tok' (List.mem_cons_self _ _)
          · exact ihb tok hrest
      | write r =>
          have hres : (applyOp i m (.write r)).slots i = some (.resolved r) := by
            unfold applyOp ThreadResultMap.writeResult
            rw [hp]
            simp
          have hwk : ∀ tok ∈ ws, tok ∈ (applyOp i m (.write r)).woken := by
            intro tok htok
            unfold applyOp ThreadResultMap.writeResult
            rw [hp]
            exact List.mem_append_left _ htok
          rw [applyOps_cons]
          refine ⟨fun tok htok => woken_mono i rest _ tok (hwk tok htok), ?_⟩
          intro tok htok
          rcases List.mem_cons.mp htok with heq | hrest
          · cases heq
          · exact resolved_listens_wake i rest _ r hres tok hrest

/-- Witness for C7: id 0 is pending with token 9 already waiting; a listen
of token 5 arrives before the write and a listen of token 6 after it; all
of 9, 5, 6 are woken. -/
theorem listeners_broadcast_witness :
    (∀ tok ∈ [9],
        tok ∈ (applyOps 0
          ⟨fun j => if j = 0 then some (.pending [9]) else none, []⟩
          [.listen 5, .write (.success 1), .listen 6]).woken) ∧
      ∀ tok, MapOp.listen tok ∈
          ([.listen 5, .write (.success 1), .listen 6] : List MapOp) →
        tok ∈ (applyOps 0
          ⟨fun j => if j = 0 then some (.pending [9]) else none, []⟩
          [.listen 5, .write (.success 1), .listen 6]).woken :=
  listeners_broadcast
    ⟨fun j => if j = 0 then some (.pending [9]) else none, []⟩ 0 [9]
    [.listen 5, .write (.success 1), .listen 6]
    (by simp)
    ⟨.success 1, by simp⟩

/-! Section: Embedding of `src/lib/traits.rs` -/

/-- Errors of the scripting-engine collaborator (`LuaError`); the only
one relevant to thread conversion per `traits.rs` is running out of
memory ("Errors when out of memory."). -/
inductive LuaError where
  | outOfMemory
deriving DecidableEq, Repr

/-- Alias for mlua's `LuaResult`: success or a `LuaError`. -/
def LuaRes (α : Type) : Type := Except LuaError α

/-- One entry of a thread queue: the runnable thread handle, its call
arguments and its assigned `ThreadId`. -/
structure QueuedItem where
  thread : Nat
  args : Nat
  id : Nat
deriving DecidableEq, Repr

/-- Embedding of the `Lua` state as seen by the extension traits of
`traits.rs`: the app-data registry slots that `Runtime::new` installs
(`none` = absent, i.e. outside an active runtime), the weak references
of the executor bridge (`some alive` = app data present, upgradeable iff
`alive`), plus the engine-side state the operations touch. -/
structure LuaState where
  /-- The `app_data` slot for `Exit`: present iff a runtime installed it;
  holds the optional exit code. -/
  exitCell : Option (Option Nat)
  /-- The `app_data` slot for `SpawnedThreadQueue` (front queue). -/
  spawnedQueue : Option (List QueuedItem)
  /-- The `app_data` slot for `DeferredThreadQueue` (back queue). -/
  deferredQueue : Option (List QueuedItem)
  /-- The `app_data` slot for `ThreadResultMap`. -/
  resultMap : Option ThreadResultMap
  /-- The `app_data` slot for `Weak<Executor>`: `none` = absent, `some b` =
  present and upgradeable iff `b`. -/
  weakExecutor : Option Bool
  /-- The `app_data` slot for `Weak<FuturesQueue>`: `none` = absent,
  `some b` = present and upgradeable iff `b`. -/
  weakFuturesQueue : Option Bool
  /-- Background-executor tasks spawned so far (handles). -/
  executorTasks : List Nat
  /-- Thread-local futures queue contents (handles). -/
  futuresQueue : List Nat
  /-- Next fresh `ThreadId`, monotonically assigned. -/
  nextId : Nat
  /-- Whether the scripting engine is out of memory (makes thread
  creation fail). -/
  oom : Bool

/-- A value that can be turned into a Lua thread, per the
`IntoLuaThread` trait: an already-created thread, a function, or a chunk. -/
inductive LuaThreadSource where
  | thread (t : Nat)
  | func (f : Nat)
  | chunk (c : Nat)
deriving DecidableEq, Repr

/-- Embedding of `Lua::create_thread`: creates a coroutine from a function; errors
when out of memory. -/
def LuaState.create_thread (l : LuaState) (f : Nat) : LuaRes Nat :=
  if l.oom then .error .outOfMemory else .ok f

/-- Embedding of `LuaChunk::into_function`: compiles a chunk into a function; errors
when out of memory. -/
def LuaState.into_function (l : LuaState) (c : Nat) : LuaRes Nat :=
  if l.oom then .error .outOfMemory else .ok c

/-- Embedding of `IntoLuaThread::into_lua_thread`, following the three impls in
`traits.rs`: a thread is returned as-is; a function goes through
`lua.create_thread`; a chunk is first compiled via `into_function` and
then passed to `lua.create_thread`. -/
def intoLuaThread (src : LuaThreadSource) (l : LuaState) : LuaRes Nat :=
  match src with
  | .thread t => .ok t
  | .func f => l.create_thread f
  | .chunk c =>
      match l.into_function c with
      | .error e => .error e
      | .ok f => l.create_thread f

/-- Outcome of a `Lua` extension-trait call: `panicked msg` models a Rust
panic (from an `expect` on a missing app-data slot or a dead weak
reference), `ok` carries the returned value and updated state. -/
inductive CallResult (α : Type) where
  | panicked (msg : String)
  | ok (val : α) (l : LuaState)

/-- Whether a call panicked. -/
def CallResult.isPanic : CallResult α → Bool
  | .panicked _ => true
  | .ok _ _ => false

/-- Modelled from the spec: `ThreadQueue::push_item` (its source file
`queue.rs` is not available) "converts `thread_source` into a runnable
thread (delegates to the external scripting-engine collaborator),
assigns a new ThreadId, appends to the queue's tail, returns the id.
Fails with `ConversionError` if the source cannot be turned into a
runnable thread." Returns the conversion result, the updated queue, and
the updated state. -/
def pushItem (l : LuaState) (q : List QueuedItem) (src : LuaThreadSource) (args : Nat) :
    LuaRes (Nat × List QueuedItem × LuaState) :=
  match intoLuaThread src l with
  | .error e => .error e
  | .ok t =>
      .ok (l.nextId, q ++ [⟨t, args, l.nextId⟩], { l with nextId := l.nextId + 1 })

/-- Embedding of `LuaRuntimeExt::set_exit_code` for `Lua`: looks up the `Exit` app
data (panicking when absent: "exit code can only be set within a
runtime") and sets the code. -/
def LuaState.set_exit_code (l : LuaState) (code : Nat) : CallResult Unit :=
  match l.exitCell with
  | none => .panicked ("exit code can only be set within a runtime")
  | some _ => .ok () { l with exitCell := some (some code) }

/-- Embedding of `LuaRuntimeExt::push_thread_front`: looks up the
`SpawnedThreadQueue` app data (panicking when absent: "lua threads can
only be pushed within a runtime") and pushes the item. -/
def LuaState.push_thread_front (l : LuaState) (src : LuaThreadSource) (args : Nat) :
    CallResult (LuaRes Nat) :=
  match l.spawnedQueue with
  | none => .panicked ("lua threads can only be pushed within a runtime")
  | some q =>
      match pushItem l q src args with
      | .error e => .ok (.error e) l
      | .ok (id, q', l') => .ok (.ok id) { l' with spawnedQueue := some q' }

/-- Embedding of `LuaRuntimeExt::push_thread_back`: looks up the
`DeferredThreadQueue` app data (panicking when absent) and pushes the
item. -/
def LuaState.push_thread_back (l : LuaState) (src : LuaThreadSource) (args : Nat) :
    CallResult (LuaRes Nat) :=
  match l.deferredQueue with
  | none => .panicked ("lua threads can only be pushed within a runtime")
  | some q =>
      match pushItem l q src args with
      | .error e => .ok (.error e) l
      | .ok (id, q', l') => .ok (.ok id) { l' with deferredQueue := some q' }

/-- Embedding of `LuaRuntimeExt::track_thread`: looks up the `ThreadResultMap` app
data (panicking when absent: "lua threads can only be tracked within a
runtime") and tracks the id. -/
def LuaState.track_thread (l : LuaState) (id : Nat) : CallResult Unit :=
  match l.resultMap with
  | none => .panicked ("lua threads can only be tracked within a runtime")
  | some m => .ok () { l with resultMap := some (m.track id) }

/-- Embedding of `LuaRuntimeExt::get_thread_result`: looks up the `ThreadResultMap`
app data (panicking when absent: "lua threads results can only be
retrieved within a runtime") and removes (takes) the stored result. -/
def LuaState.get_thread_result (l : LuaState) (id : Nat) :
    CallResult (Option ThreadResult) :=
  match l.resultMap with
  | none => .panicked ("lua threads results can only be retrieved within a runtime")
  | some m => .ok (m.remove id).1 { l with resultMap := some (m.remove id).2 }

/-- Embedding of `LuaRuntimeExt::wait_for_thread`: looks up the `ThreadResultMap` app
data (panicking when absent) and registers a listener for the id. -/
def LuaState.wait_for_thread (l : LuaState) (id : Nat) (tok : Nat) : CallResult Unit :=
  match l.resultMap with
  | none => .panicked ("lua threads results can only be retrieved within a runtime")
  | some m => .ok () { l with resultMap := some (m.listen id tok) }

/-- Embedding of `LuaSpawnExt::spawn`: looks up the `Weak<Executor>` app data
(panicking when absent: "tasks can only be spawned within a runtime"),
upgrades it (panicking when the executor was dropped: "executor was
dropped") and spawns the future on the executor. -/
def LuaState.spawn (l : LuaState) (fut : Nat) : CallResult Nat :=
  match l.weakExecutor with
  | none => .panicked ("tasks can only be spawned within a runtime")
  | some false => .panicked ("executor was dropped")
  | some true => .ok fut { l with executorTasks := l.executorTasks ++ [fut] }

/-- Embedding of `LuaSpawnExt::spawn_local`: looks up the `Weak<FuturesQueue>` app
data (panicking when absent), upgrades it (panicking when dropped) and
pushes the future onto the futures queue. -/
def LuaState.spawn_local (l : LuaState) (fut : Nat) : CallResult Unit :=
  match l.weakFuturesQueue with
  | none => .panicked ("tasks can only be spawned within a runtime")
  | some false => .panicked ("executor was dropped")
  | some true => .ok () { l with futuresQueue := l.futuresQueue ++ [fut] }

/-- Embedding of `LuaSpawnExt::spawn_blocking`: looks up the `Weak<Executor>` app
data (panicking when absent), upgrades it (panicking when dropped) and
spawns the blocking function, wrapped as a future, on the executor. -/
def LuaState.spawn_blocking (l : LuaState) (f : Nat) : CallResult Nat :=
  match l.weakExecutor with
  | none => .panicked ("tasks can only be spawned within a runtime")
  | some false => .panicked ("executor was dropped")
  | some true => .ok f { l with executorTasks := l.executorTasks ++ [f] }

/-- Claim C2: Every scheduler operation exposed on the Lua state
(`set_exit_code`, `push_thread_front`, `push_thread_back`,
`track_thread`, `get_thread_result`, `wait_for_thread`, `spawn`,
`spawn_local`, `spawn_blocking`), when invoked outside an active Runtime
(state `l`: no app-data slot installed) panics; and after the Runtime has
been dropped (state `l'`: the bridge's weak executor/futures-queue
references fail to upgrade) the three bridge operations panic as well,
rather than silently succeeding or degrading. -/
theorem ops_panic_outside_runtime (l l' : LuaState)
    (code args id tok fut f : Nat) (src : LuaThreadSource)
    (h1 : l.exitCell = none) (h2 : l.spawnedQueue = none)
    (h3 : l.deferredQueue = none) (h4 : l.resultMap = none)
    (h5 : l.weakExecutor = none) (h6 : l.weakFuturesQueue = none)
    (h7 : l'.weakExecutor = some false) (h8 : l'.weakFuturesQueue = some false) :
    (l.set_exit_code code).isPanic = true ∧
      (l.push_thread_front src args).isPanic = true ∧
      (l.push_thread_back src args).isPanic = true ∧
      (l.track_thread id).isPanic = true ∧
      (l.get_thread_result id).isPanic = true ∧
      (l.wait_for_thread id tok).isPanic = true ∧
      (l.spawn fut).isPanic = true ∧
      (l.spawn_local fut).isPanic = true ∧
      (l.spawn_blocking f).isPanic = true ∧
      (l'.spawn fut).isPanic = true ∧
      (l'.spawn_local fut).isPanic = true ∧
      (l'.spawn_blocking f).isPanic = true := by
  refine ⟨?_, ?_, ?_, ?_, ?_, ?_, ?_, ?_, ?_, ?_, ?_, ?_⟩ <;>
    simp [LuaState.set_exit_code, LuaState.push_thread_front,
      LuaState.push_thread_back, LuaState.track_thread,
      LuaState.get_thread_result, LuaState.wait_for_thread, LuaState.spawn,
      LuaState.spawn_local, LuaState.spawn_blocking, CallResult.isPanic,
      h1, h2, h3, h4, h5, h6, h7, h8]

/-- Witness for C2: a Lua state with no app data installed, and one whose
weak executor/futures-queue references are dead; all operations panic. -/
theorem ops_panic_outside_runtime_witness :
    ((⟨none, none, none, none, none, none, [], [], 0, false⟩ :
        LuaState).set_exit_code 1).isPanic = true ∧
      ((⟨none, none, none, none, none, none, [], [], 0, false⟩ :
          LuaState).push_thread_front (.thread 2) 0).isPanic = true ∧
      ((⟨none, none, none, none, none, none, [], [], 0, false⟩ :
          LuaState).push_thread_back (.thread 2) 0).isPanic = true ∧
      ((⟨none, none, none, none, none, none, [], [], 0, false⟩ :
          LuaState).track_thread 0).isPanic = true ∧
      ((⟨none, none, none, none, none, none, [], [], 0, false⟩ :
          LuaState).get_thread_result 0).isPanic = true ∧
      ((⟨none, none, none, none, none, none, [], [], 0, false⟩ :
          LuaState).wait_for_thread 0 0).isPanic = true ∧
      ((⟨none, none, none, none, none, none, [], [], 0, false⟩ :
          LuaState).spawn 5).isPanic = true ∧
      ((⟨none, none, none, none, none, none, [], [], 0, false⟩ :
          LuaState).spawn_local 5).isPanic = true ∧
      ((⟨none, none, none, none, none, none, [], [], 0, false⟩ :
          LuaState).spawn_blocking 6).isPanic = true ∧
      ((⟨some none, some [], some [], some ThreadResultMap.empty, some false,
          some false, [], [], 0, false⟩ : LuaState).spawn 5).isPanic = true ∧
      ((⟨some none, some [], some [], some ThreadResultMap.empty, some false,
          some false, [], [], 0, false⟩ : LuaState).spawn_local 5).isPanic = true ∧
      ((⟨some none, some [], some [], some ThreadResultMap.empty, some false,
          some false, [], [], 0, false⟩ : LuaState).spawn_blocking 6).isPanic = true :=
  ops_panic_outside_runtime
    ⟨none, none, none, none, none, none, [], [], 0, false⟩
    ⟨some none, some [], some [], some ThreadResultMap.empty, some false,
      some false, [], [], 0, false⟩
    1 0 0 0 5 6 (.thread 2) rfl rfl rfl rfl rfl rfl rfl rfl

/-- Claim C9: For every already-created Lua thread, `into_lua_thread`
always succeeds and returns that same thread unchanged (identity, never a
conversion error) — unlike conversion of functions or chunks, which can
fail (when the engine is out of memory). -/
theorem into_lua_thread_identity :
    (∀ (t : Nat) (l : LuaState), intoLuaThread (.thread t) l = .ok t) ∧
      (∃ (fn : Nat) (l : LuaState) (e : LuaError),
        intoLuaThread (.func fn) l = .error e) ∧
      ∃ (c : Nat) (l : LuaState) (e : LuaError),
        intoLuaThread (.chunk c) l = .error e := by
  refine ⟨fun t l => rfl, ?_, ?_⟩
  · exact ⟨0, ⟨none, none, none, none, none, none, [], [], 0, true⟩,
      .outOfMemory, rfl⟩
  · exact ⟨0, ⟨none, none, none, none, none, none, [], [], 0, true⟩,
      .outOfMemory, rfl⟩

/-! Section: The sleep primitive of `src/examples/scheduler_ordering.rs` -/

/-- The duration actually requested from the timer by the `sleep` async
function: `duration.unwrap_or_default().max(1.0 / 250.0)` — an absent
argument defaults to `0`, and the result is clamped from below by
`1/250`. Durations are modelled as exact rationals. -/
def sleepDuration (duration : Option ℚ) : ℚ :=
  max (duration.getD 0) (1 / 250)

/-- Modelled from the spec: the external timer collaborator ("delay for
duration" with "a minimum granularity floor" that "produc[es] an
elapsed-time measurement on completion") fires `extra ≥ 0` time after
the requested deadline; `sleep` returns the measured elapsed time
`after - before`, here the requested (clamped) duration plus the firing
latency. -/
def sleepElapsed (duration : Option ℚ) (extra : ℚ) : ℚ :=
  sleepDuration duration + extra

/-- Claim C5: For every duration argument that is 0 or negative, the
`sleep` primitive clamps the requested wait up to the 1/250-second floor
and the returned elapsed-time measurement is at least that floor. -/
theorem sleep_clamps_nonpositive (d extra : ℚ)
    (hd : d ≤ 0) (hx : 0 ≤ extra) :
    sleepDuration (some d) = 1 / 250 ∧ 1 / 250 ≤ sleepElapsed (some d) extra := by
  have hfloor : sleepDuration (some d) = 1 / 250 := by
    unfold sleepDuration
    simp only [Option.getD_some]
    exact max_eq_right (by linarith)
  refine ⟨hfloor, ?_⟩
  unfold sleepElapsed
  rw [hfloor]
  linarith

/-- Witness for C5: calling sleep with duration 0 and a timer that fires
exactly on time waits exactly the 1/250-second floor. -/
theorem sleep_clamps_nonpositive_witness :
    sleepDuration (some 0) = 1 / 250 ∧ 1 / 250 ≤ sleepElapsed (some 0) 0 :=
  sleep_clamps_nonpositive 0 0 (by norm_num) (by norm_num)

/-- Claim C10: Calling `sleep` with no duration argument behaves
identically to calling it with duration 0: the absent argument defaults
to 0, which is clamped to the 1/250-second minimum, so the requested
wait (and hence any resulting elapsed measurement) equals that of an
explicit 0 and is at least 1/250 second. -/
theorem sleep_none_eq_zero :
    sleepDuration none = sleepDuration (some 0) ∧
      (∀ extra : ℚ, sleepElapsed none extra = sleepElapsed (some 0) extra) ∧
      sleepDuration none = 1 / 250 := by
  have h : sleepDuration none = sleepDuration (some 0) := rfl
  refine ⟨h, fun extra => ?_, ?_⟩
  · unfold sleepElapsed
    rw [h]
  · unfold sleepDuration
    simp only [Option.getD_none]
    exact max_eq_right (by norm_num)

/-! Section: The tick resolution loop

Modelled from the spec (the `runtime.rs` and `queue.rs` sources are not
available): each tick drains the spawn queue to a fixed point, then
drains the defer queue exactly once.  A script thread is abstracted by
its scheduling effect: the id it gets executed under and the sequence of
pushes it performs onto the two queues while it runs. -/

/-- Modelled from the spec: a script thread, abstracted by its execution
id and the ordered pushes (`true` = push to the spawn/front queue,
`false` = push to the defer/back queue) it performs when run. Pushed
threads are themselves such threads, so spawn cascades are finite by
construction ("drained ... to a bounded fixed-point"). -/
inductive SThread where
  | mk (id : Nat) (pushes : List (Bool × SThread))

/-- The id a thread executes under. -/
def SThread.tid : SThread → Nat
  | .mk id _ => id

/-- The threads a running thread pushes onto the spawn (front) queue, in
push order. -/
def spawnPushes : List (Bool × SThread) → List SThread
  | [] => []
  | (b, t) :: ps => if b then t :: spawnPushes ps else spawnPushes ps

/-- The threads a running thread pushes onto the defer (back) queue, in
push order. -/
def deferPushes : List (Bool × SThread) → List SThread
  | [] => []
  | (b, t) :: ps => if b then deferPushes ps else t :: deferPushes ps

mutual

/-- Size of a thread (for termination of the spawn-queue drain). -/
def SThread.size : SThread → Nat
  | .mk _ ps => 1 + sizePairs ps

/-- Total size of a push list. -/
def sizePairs : List (Bool × SThread) → Nat
  | [] => 0
  | (_, t) :: ps => SThread.size t + sizePairs ps

end

/-- Total size of a thread list. -/
def sizeL : List SThread → Nat
  | [] => 0
  | t :: ts => t.size + sizeL ts

theorem sizeL_append (a b : List SThread) : sizeL (a ++ b) = sizeL a + sizeL b := by
  induction a with
  | nil => simp [sizeL]
  | cons t ts ih => simp [sizeL, ih]; omega

theorem sizeL_spawnPushes_le (ps : List (Bool × SThread)) :
    sizeL (spawnPushes ps) ≤ sizePairs ps := by
  induction ps with
  | nil => simp [spawnPushes, sizePairs, sizeL]
  | cons p rest ih =>
      obtain ⟨b, t⟩ := p
      cases b with
      | true => simp [spawnPushes, sizePairs, sizeL]; omega
      | false => simp [spawnPushes, sizePairs]; omega

theorem sizeL_drain_lt (id : Nat) (ps : List (Bool × SThread)) (rest : List SThread) :
    sizeL (rest ++ spawnPushes ps) < sizeL (SThread.mk id ps :: rest) := by
  have h1 := sizeL_append rest (spawnPushes ps)
  have h2 := sizeL_spawnPushes_le ps
  simp [sizeL, SThread.size] at *
  omega

/-- Modelled from the spec: drain the spawn queue to a fixed point —
pop from the head, run the thread (recording its id in the trace), append
its spawn-pushes to the spawn queue's tail and its defer-pushes to the
defer queue's tail, until the spawn queue is empty.  Returns the defer
queue snapshot for this tick and the execution trace. -/
def drainSpawn (sq dq : List SThread) : List SThread × List Nat :=
  match sq with
  | [] => (dq, [])
  | .mk id ps :: rest =>
      let r := drainSpawn (rest ++ spawnPushes ps) (dq ++ deferPushes ps)
      (r.1, id :: r.2)
termination_by sizeL sq
decreasing_by exact sizeL_drain_lt id ps rest

/-- Modelled from the spec: drain the defer queue exactly once — each
deferred thread present in this tick's snapshot runs once; "its own
pushes during drain are carried to the next tick".  Returns the
next tick's (spawn additions, defer additions) and the execution trace. -/
def drainDefer : List SThread → List SThread × List SThread × List Nat
  | [] => ([], [], [])
  | .mk id ps :: rest =>
      let r := drainDefer rest
      (spawnPushes ps ++ r.1, deferPushes ps ++ r.2.1, id :: r.2.2)

/-- Result of one tick: the two queues carried to the next tick and the
ordered trace of executed thread ids. -/
structure TickResult where
  nextSpawn : List SThread
  nextDefer : List SThread
  trace : List Nat

/-- Modelled from the spec: one tick of the resolution loop — "drain
spawn queue to fixed point, drain defer queue once". -/
def tick (sq dq : List SThread) : TickResult :=
  let s := drainSpawn sq dq
  let d := drainDefer s.1
  { nextSpawn := d.1, nextDefer := d.2.1, trace := s.2 ++ d.2.2 }

/-- Trace of the spawn-drain phase of a tick. -/
def spawnTrace (sq dq : List SThread) : List Nat := (drainSpawn sq dq).2

/-- Trace of the defer-drain phase of a tick. -/
def deferTrace (sq dq : List SThread) : List Nat :=
  (drainDefer (drainSpawn sq dq).1).2.2

mutual

/-- The transitive spawn closure of one thread: its own id followed by
the ids of everything it pushes to the spawn queue, recursively. -/
def spawnClosure : SThread → List Nat
  | .mk id ps => id :: spawnClosurePairs ps

/-- Spawn closure of a push list: only spawn-pushes contribute. -/
def spawnClosurePairs : List (Bool × SThread) → List Nat
  | [] => []
  | (b, t) :: ps => (if b then spawnClosure t else []) ++ spawnClosurePairs ps

end

/-- Spawn closure of a whole queue. -/
def spawnClosureL : List SThread → List Nat
  | [] => []
  | t :: ts => spawnClosure t ++ spawnClosureL ts

/-- The ids of the threads of a queue, in order. -/
def idsOf : List SThread → List Nat
  | [] => []
  | .mk id _ :: rest => id :: idsOf rest

theorem spawnClosureL_append (a b : List SThread) :
    spawnClosureL (a ++ b) = spawnClosureL a ++ spawnClosureL b := by
  induction a with
  | nil => simp [spawnClosureL]
  | cons t ts ih => simp [spawnClosureL, ih]

theorem spawnClosurePairs_eq (ps : List (Bool × SThread)) :
    spawnClosurePairs ps = spawnClosureL (spawnPushes ps) := by
  induction ps with
  | nil => simp [spawnClosurePairs, spawnPushes, spawnClosureL]
  | cons p rest ih =>
      obtain ⟨b, t⟩ := p
      cases b with
      | true => simp [spawnClosurePairs, spawnPushes, spawnClosureL, ih]
      | false => simp [spawnClosurePairs, spawnPushes, ih]

/-- The spawn-drain phase executes exactly the transitive spawn closure
of the initial spawn queue (as a multiset; the drain order is
breadth-first while the closure is depth-first). -/
theorem drainSpawn_trace_perm (sq dq : List SThread) :
    List.Perm (drainSpawn sq dq).2 (spawnClosureL sq) := by
  induction sq, dq using drainSpawn.induct with
  | case1 dq => simp [drainSpawn, spawnClosureL]
  | case2 dq id ps rest ih =>
      rw [drainSpawn]
      simp only [spawnClosureL, spawnClosure]
      refine List.Perm.cons id (List.Perm.trans ih ?_)
      rw [spawnClosureL_append, spawnClosurePairs_eq]
      exact List.perm_append_comm

/-- The defer-drain phase executes exactly the ids of the defer-queue
snapshot, once each, in order. -/
theorem drainDefer_trace (dq : List SThread) : (drainDefer dq).2.2 = idsOf dq := by
  induction dq with
  | nil => rfl
  | cons t rest ih =>
      obtain ⟨id, ps⟩ := t
      simp [drainDefer, idsOf, ih]

/-- Claim C1: In every tick, every thread in the spawn queue at the start
of the tick — transitively including threads pushed onto the spawn queue
by spawn-queue threads running during the same tick (`spawnClosureL sq`)
— executes strictly before any defer-queue thread executes in that tick:
the tick trace is the spawn-phase trace (a permutation of the transitive
spawn closure) followed by the defer-phase trace (the defer snapshot's
ids), so every spawn-phase position `p` strictly precedes every
defer-phase position. -/
theorem tick_spawn_before_defer (sq dq : List SThread) (p q : Nat)
    (hp : p < (spawnTrace sq dq).length)
    (hq : q < (deferTrace sq dq).length) :
    (tick sq dq).trace = spawnTrace sq dq ++ deferTrace sq dq ∧
      List.Perm (spawnTrace sq dq) (spawnClosureL sq) ∧
      deferTrace sq dq = idsOf (drainSpawn sq dq).1 ∧
      (tick sq dq).trace[p]? = (spawnTrace sq dq)[p]? ∧
      (tick sq dq).trace[(spawnTrace sq dq).length + q]? = (deferTrace sq dq)[q]? ∧
      p < (spawnTrace sq dq).length + q := by
  have hdecomp : (tick sq dq).trace = spawnTrace sq dq ++ deferTrace sq dq := rfl
  refine ⟨hdecomp, drainSpawn_trace_perm sq dq,
    drainDefer_trace ((drainSpawn sq dq).1), ?_, ?_, by omega⟩
  · rw [hdecomp]
    exact List.getElem?_append_left hp
  · rw [hdecomp, List.getElem?_append_right (by omega)]
    congr 1
    omega

/-- Witness for C1: thread 1 spawns thread 2 and defers thread 3, with
thread 4 already deferred; the tick runs 1, 2 (spawn closure), then 4, 3
(defer snapshot), so position 0 of the spawn phase precedes position 0 of
the defer phase. -/
theorem tick_spawn_before_defer_witness :
    (tick [.mk 1 [(true, .mk 2 []), (false, .mk 3 [])]] [.mk 4 []]).trace =
        spawnTrace [.mk 1 [(true, .mk 2 []), (false, .mk 3 [])]] [.mk 4 []] ++
          deferTrace [.mk 1 [(true, .mk 2 []), (false, .mk 3 [])]] [.mk 4 []] ∧
      List.Perm
        (spawnTrace [.mk 1 [(true, .mk 2 []), (false, .mk 3 [])]] [.mk 4 []])
        (spawnClosureL [.mk 1 [(true, .mk 2 []), (false, .mk 3 [])]]) ∧
      deferTrace [.mk 1 [(true, .mk 2 []), (false, .mk 3 [])]] [.mk 4 []] =
        idsOf (drainSpawn [.mk 1 [(true, .mk 2 []), (false, .mk 3 [])]]
          [.mk 4 []]).1 ∧
      (tick [.mk 1 [(true, .mk 2 []), (false, .mk 3 [])]] [.mk 4 []]).trace[0]? =
        (spawnTrace [.mk 1 [(true, .mk 2 []), (false, .mk 3 [])]] [.mk 4 []])[0]? ∧
      (tick [.mk 1 [(true, .mk 2 []), (false, .mk 3 [])]]
            [.mk 4 []]).trace[(spawnTrace [.mk 1 [(true, .mk 2 []), (false, .mk 3 [])]]
            [.mk 4 []]).length + 0]? =
        (deferTrace [.mk 1 [(true, .mk 2 []), (false, .mk 3 [])]] [.mk 4 []])[0]? ∧
      0 < (spawnTrace [.mk 1 [(true, .mk 2 []), (false, .mk 3 [])]]
            [.mk 4 []]).length + 0 :=
  tick_spawn_before_defer [.mk 1 [(true, .mk 2 []), (false, .mk 3 [])]] [.mk 4 []] 0 0
    (by simp [spawnTrace, drainSpawn, spawnPushes, deferPushes])
    (by simp [deferTrace, drainSpawn, drainDefer, spawnPushes, deferPushes])

/-! Section: The run loop (termination when idle) -/

/-- Modelled from the spec: the observable progress state of the
resolution loop — the two thread queues, counts of outstanding
futures-queue entries and background-executor work, and the exit cell. -/
structure RtState where
  spawnQ : List SThread
  deferQ : List SThread
  futures : Nat
  background : Nat
  exitCode : Option Nat

/-- Both thread queues and the futures queue are empty and no background
executor work remains outstanding. -/
def RtState.isIdle (s : RtState) : Bool :=
  s.spawnQ.isEmpty && s.deferQ.isEmpty && s.futures == 0 && s.background == 0

/-- One tick applied to the loop state: the thread queues advance by
`tick`; futures/background progress is abstracted by the `progress`
parameter of the loop. -/
def RtState.stepTick (s : RtState) : RtState :=
  { s with spawnQ := (tick s.spawnQ s.deferQ).nextSpawn,
           deferQ := (tick s.spawnQ s.deferQ).nextDefer }

/-- Modelled from the spec: `run()` / `run_blocking()` "drives ticks
until both queues and the futures queue are empty AND no background
executor work remains outstanding, or until Stopped via exit code.
Returns the final exit code (default success if never explicitly set)".
`progress` abstracts the futures/background work done between ticks;
`fuel` bounds the number of ticks examined (`none` = still running after
`fuel` ticks). Success is exit code 0. -/
def runLoop (progress : RtState → RtState) (fuel : Nat) (s : RtState) : Option Nat :=
  match fuel with
  | 0 => none
  | fuel + 1 =>
      if s.isIdle || s.exitCode.isSome then some (s.exitCode.getD 0)
      else runLoop progress fuel (progress s.stepTick)

/-- Claim C8: The run loop terminates and returns immediately — at the very
first tick boundary, for any fuel and any futures/background behavior —
whenever both thread queues and the futures queue are empty and no
background work is outstanding (in particular when zero threads were
ever spawned), returning the final exit code: the one stored in the exit
cell, or the default success code 0 if none was ever set. -/
theorem run_terminates_when_idle (progress : RtState → RtState)
    (s : RtState) (fuel : Nat)
    (hidle : s.isIdle = true) (hfuel : 0 < fuel) :
    runLoop progress fuel s = some (s.exitCode.getD 0) := by
  cases fuel with
  | zero => omega
  | succ n => simp [runLoop, hidle]

/-- Witness for C8: the pristine state — no thread ever spawned, nothing
outstanding, exit code never set — makes the loop return the default
success code 0. -/
theorem run_terminates_when_idle_witness :
    runLoop (fun s => s) 1 ⟨[], [], 0, 0, none⟩ =
      some ((⟨[], [], 0, 0, none⟩ : RtState).exitCode.getD 0) :=
  run_terminates_when_idle (fun s => s) ⟨[], [], 0, 0, none⟩ 1 rfl (by omega)

end MluaLuauRuntime
